import Mathlib

/-!
Verification of the syscall module of rbpf (`src/syscalls.rs`).

The syscalls are embedded shallowly: guest-visible state is the memory
mapping (region metadata) together with host memory, modelled as a total
byte function `Nat → Nat`; each mapped region identifies an interval of
host memory.  Each syscall becomes a pure function returning the trace of
writes it performs on its output slot (`List Result`), the trace of
translation requests it issues (`List MapCall`), and its updated state
where it has any.  The address-translation service and the error type are
external collaborators of this module; they are modelled from their
specified contract.
-/

namespace Rbpf

/-- Access intent of a translation request: read (`Load`) or write (`Store`). -/
inductive AccessType where
  | Load
  | Store
deriving DecidableEq, Repr

/-- Modelled from the spec: the guest-visible error of the translation
service (its implementation is external to this module).  An
`AccessViolation` carries the intent, guest address and length of the
failed request. -/
inductive EbpfError where
  | AccessViolation (intent : AccessType) (vmAddr : Nat) (len : Nat)
deriving DecidableEq, Repr

/-- Return type of syscalls (`Result` in the source): one success value or
one typed failure. -/
inductive Result where
  | ok (value : Nat)
  | err (e : EbpfError)
deriving DecidableEq, Repr

/-- Modelled from the spec: one mapped guest region.  It maps the guest
interval `[vmAddr, vmAddr + len)` onto the host interval
`[hostAddr, hostAddr + len)` and records whether stores are permitted. -/
structure MemoryRegion where
  hostAddr : Nat
  vmAddr : Nat
  len : Nat
  writable : Bool
deriving DecidableEq, Repr

/-- Modelled from the spec: the memory mapping handed to every syscall. -/
structure MemoryMapping where
  regions : List MemoryRegion
deriving Repr

/-- Whether a region entirely covers `[vmAddr, vmAddr + len)` with
permissions satisfying `access` (Store requires writability). -/
def MemoryRegion.covers (r : MemoryRegion) (access : AccessType) (vmAddr len : Nat) : Bool :=
  decide (r.vmAddr ≤ vmAddr) && decide (vmAddr + len ≤ r.vmAddr + r.len) &&
    (match access with
     | AccessType.Load => true
     | AccessType.Store => r.writable)

/-- Modelled from the spec: `translate(intent, address, length)` succeeds
with a host address exactly when the requested range lies entirely within
one mapped region whose permissions satisfy the intent; a failure is
atomic and carries the intent, address and length. -/
def MemoryMapping.map (m : MemoryMapping) (access : AccessType) (vmAddr len : Nat) :
    Except EbpfError Nat :=
  match m.regions.find? (fun r => r.covers access vmAddr len) with
  | some r => Except.ok (r.hostAddr + (vmAddr - r.vmAddr))
  | none => Except.error (EbpfError.AccessViolation access vmAddr len)

/-- One recorded translation request: intent, guest address, length. -/
abbrev MapCall := AccessType × Nat × Nat

/-- `u64::MAX`. -/
def u64Max : Nat := 2 ^ 64 - 1

/-- `u64::wrapping_shl`: shift left by the amount modulo 64, modulo `2^64`. -/
def wrappingShl (x s : Nat) : Nat := (x <<< (s % 64)) % 2 ^ 64

/-- In-place update of one host byte. -/
def setByte (host : Nat → Nat) (p v : Nat) : Nat → Nat :=
  fun q => if q = p then v else host q

/-- `BpfTracePrintf::call`.  The two leading arguments are unused.  The
returned byte count adds, to the length of the fixed skeleton, a size for
each printed argument; the source computes that size with `f64` logarithm
arithmetic (`(x as f64).log(16.0).floor() as u64 + 1`), which has no exact
integer semantics, so it is kept abstract here as `sizeArg`. -/
def BpfTracePrintf.call (sizeArg : Nat → Nat) (_memoryMapping : MemoryMapping)
    (_arg1 _arg2 arg3 arg4 arg5 : Nat) : List Result × List MapCall :=
  ([Result.ok ("BpfTracePrintf: 0x, 0x, 0x\n".length
      + sizeArg arg3 + sizeArg arg4 + sizeArg arg5)], [])

/-- `BpfGatherBytes::call`: OR of wrapping left shifts of the five
arguments by 32, 24, 16, 8, 0 bits.  No translation is performed. -/
def BpfGatherBytes.call (_memoryMapping : MemoryMapping)
    (arg1 arg2 arg3 arg4 arg5 : Nat) : List Result × List MapCall :=
  ([Result.ok (wrappingShl arg1 32 ||| wrappingShl arg2 24 ||| wrappingShl arg3 16
      ||| wrappingShl arg4 8 ||| arg5)], [])

/-- The spec's packing formula for byte gather, for comparison with the
source: low byte of each argument at bit offsets 32, 24, 16, 8, 0. -/
def gatherBytesLowBytePack (arg1 arg2 arg3 arg4 arg5 : Nat) : Nat :=
  ((arg1 % 256) <<< 32) ||| ((arg2 % 256) <<< 24) ||| ((arg3 % 256) <<< 16)
    ||| ((arg4 % 256) <<< 8) ||| (arg5 % 256)

/-- The XOR loop of `BpfMemFrob::call`: for `i in 0..len`, the byte at
`hostAddr + i` is XORed in place with `0b101010`. -/
def BpfMemFrob.frobLoop (host : Nat → Nat) (hostAddr : Nat) : Nat → (Nat → Nat)
  | 0 => host
  | n + 1 =>
      setByte (BpfMemFrob.frobLoop host hostAddr n) (hostAddr + n)
        (BpfMemFrob.frobLoop host hostAddr n (hostAddr + n) ^^^ 42)

/-- `BpfMemFrob::call`: translate `[vmAddr, vmAddr + len)` for Store; on
failure write the error and stop; on success XOR each byte in the range
with `0b101010` and write 0. -/
def BpfMemFrob.call (memoryMapping : MemoryMapping) (host : Nat → Nat)
    (vmAddr len _arg3 _arg4 _arg5 : Nat) :
    List Result × List MapCall × (Nat → Nat) :=
  match memoryMapping.map AccessType.Store vmAddr len with
  | Except.error e => ([Result.err e], [(AccessType.Store, vmAddr, len)], host)
  | Except.ok hostAddr =>
      ([Result.ok 0], [(AccessType.Store, vmAddr, len)],
        BpfMemFrob.frobLoop host hostAddr len)

/-- The byte walk of `BpfStrCmp::call`: starting from the two translated
host addresses, advance both raw host pointers while the bytes are equal
and nonzero; return the final pair of bytes.  The walk performs no further
translation; `fuel` bounds the number of advances (the source loop has no
such bound and simply keeps dereferencing). -/
def BpfStrCmp.loop (host : Nat → Nat) : Nat → Nat → Nat → Option (Nat × Nat)
  | 0, a, b =>
      if host a = host b ∧ host a ≠ 0 ∧ host b ≠ 0 then none
      else some (host a, host b)
  | fuel + 1, a, b =>
      if host a = host b ∧ host a ≠ 0 ∧ host b ≠ 0 then
        BpfStrCmp.loop host fuel (a + 1) (b + 1)
      else some (host a, host b)

/-- `BpfStrCmp::call`: null-sentinel check, then a single one-byte Load
translation of each start address, then the raw byte walk from the two
host addresses; the result is the unsigned magnitude of the final byte
pair.  An empty write trace records the case in which the walk never
reaches a stopping byte pair within `fuel`. -/
def BpfStrCmp.call (memoryMapping : MemoryMapping) (host : Nat → Nat)
    (arg1 arg2 _arg3 _arg4 _arg5 fuel : Nat) : List Result × List MapCall :=
  if arg1 = 0 ∨ arg2 = 0 then ([Result.ok u64Max], [])
  else
    match memoryMapping.map AccessType.Load arg1 1 with
    | Except.error e => ([Result.err e], [(AccessType.Load, arg1, 1)])
    | Except.ok a =>
        match memoryMapping.map AccessType.Load arg2 1 with
        | Except.error e =>
            ([Result.err e], [(AccessType.Load, arg1, 1), (AccessType.Load, arg2, 1)])
        | Except.ok b =>
            match BpfStrCmp.loop host fuel a b with
            | none => ([], [(AccessType.Load, arg1, 1), (AccessType.Load, arg2, 1)])
            | some (aVal, bVal) =>
                ([Result.ok (if bVal ≤ aVal then aVal - bVal else bVal - aVal)],
                  [(AccessType.Load, arg1, 1), (AccessType.Load, arg2, 1)])

/-- A UTF-8 continuation byte. -/
def utf8Cont (b : Nat) : Bool := 0x80 ≤ b && b ≤ 0xBF

/-- One step of the standard UTF-8 acceptor (RFC 3629, as enforced by
`from_utf8`).  States: 0 expects a lead byte; 1, 2, 3 expect that many
unconstrained continuation bytes; 4, 5 follow E0 and ED; 6, 7 follow F0
and F4. -/
def utf8Step (state b : Nat) : Option Nat :=
  match state with
  | 0 =>
      if b ≤ 0x7F then some 0
      else if 0xC2 ≤ b ∧ b ≤ 0xDF then some 1
      else if b = 0xE0 then some 4
      else if b = 0xED then some 5
      else if 0xE1 ≤ b ∧ b ≤ 0xEF then some 2
      else if b = 0xF0 then some 6
      else if 0xF1 ≤ b ∧ b ≤ 0xF3 then some 3
      else if b = 0xF4 then some 7
      else none
  | 1 => if utf8Cont b then some 0 else none
  | 2 => if utf8Cont b then some 1 else none
  | 3 => if utf8Cont b then some 2 else none
  | 4 => if 0xA0 ≤ b ∧ b ≤ 0xBF then some 1 else none
  | 5 => if 0x80 ≤ b ∧ b ≤ 0x9F then some 1 else none
  | 6 => if 0x90 ≤ b ∧ b ≤ 0xBF then some 2 else none
  | 7 => if 0x80 ≤ b ∧ b ≤ 0x8F then some 2 else none
  | _ + 8 => none

/-- Run of the UTF-8 acceptor from a state. -/
def utf8ValidFrom (state : Nat) : List Nat → Bool
  | [] => decide (state = 0)
  | b :: rest =>
      match utf8Step state b with
      | none => false
      | some s => utf8ValidFrom s rest

/-- Whether a byte list is valid UTF-8 (`from_utf8` succeeds on it). -/
def utf8Valid (l : List Nat) : Bool := utf8ValidFrom 0 l

/-- Bytes of the fixed placeholder `"Invalid UTF-8 String"` substituted by
`unwrap_or` when the guest bytes are not valid UTF-8. -/
def invalidUtf8Placeholder : List Nat :=
  [73, 110, 118, 97, 108, 105, 100, 32, 85, 84, 70, 45, 56, 32, 83, 116, 114, 105, 110, 103]

/-- `BpfSyscallString::call`: translate `[vmAddr, vmAddr + len)` for Load;
on failure write the error and stop; on success decode the bytes as UTF-8
with the fixed placeholder substituted for invalid data, emit the message
(returned here as the bytes of the emitted text), and write 0.  The
source's NUL-scanning loop reads within the translated range and has no
observable effect, so it contributes nothing to the embedding. -/
def BpfSyscallString.call (memoryMapping : MemoryMapping) (host : Nat → Nat)
    (vmAddr len _arg3 _arg4 _arg5 : Nat) :
    List Result × List MapCall × Option (List Nat) :=
  match memoryMapping.map AccessType.Load vmAddr len with
  | Except.error e => ([Result.err e], [(AccessType.Load, vmAddr, len)], none)
  | Except.ok hostAddr =>
      let bytes := (List.range len).map (fun i => host (hostAddr + i))
      let message := if utf8Valid bytes then bytes else invalidUtf8Placeholder
      ([Result.ok 0], [(AccessType.Load, vmAddr, len)], some message)

/-- `BpfSyscallU64::call`: emit the five arguments, write 0. -/
def BpfSyscallU64.call (_memoryMapping : MemoryMapping)
    (_arg1 _arg2 _arg3 _arg4 _arg5 : Nat) : List Result × List MapCall :=
  ([Result.ok 0], [])

/-- `SyscallWithContext::call`: assert that the persisted context equals
42 (a failed assertion aborts, modelled as `none`, before any write to the
output slot), then overwrite the context with 84 and write 0.  The result
carries the write trace, the translation trace and the new context. -/
def SyscallWithContext.call (_memoryMapping : MemoryMapping) (context : Nat)
    (_arg1 _arg2 _arg3 _arg4 _arg5 : Nat) :
    Option (List Result × List MapCall × Nat) :=
  if context = 42 then some ([Result.ok 0], [], 84) else none

/-! Concrete mappings and host memories used to instantiate the theorems. -/

/-- A mapping with no regions: every translation fails. -/
def mEmpty : MemoryMapping := ⟨[]⟩

/-- All-zero host memory. -/
def host0 : Nat → Nat := fun _ => 0

/-- One writable 8-byte region for the memory-obfuscate examples, placed at
guest address `0x100000000` over host bytes `[0, 8)`. -/
def frobRegion : MemoryRegion := ⟨0, 4294967296, 8, true⟩

/-- Mapping holding `frobRegion`. -/
def frobMapping : MemoryMapping := ⟨[frobRegion]⟩

/-- The spec's example buffer `[0,0,0,0,0,0x11,0x22,0x33]` as host memory. -/
def frobHost : Nat → Nat := fun p => List.getD [0, 0, 0, 0, 0, 0x11, 0x22, 0x33] p 0

/-- One readable 2-byte region for the string-log example, placed at guest
address `0x100000000` over host bytes `[100, 102)`. -/
def strLogRegion : MemoryRegion := ⟨100, 4294967296, 2, false⟩

/-- Mapping holding `strLogRegion`. -/
def strLogMapping : MemoryMapping := ⟨[strLogRegion]⟩

/-- Host memory whose mapped string-log bytes are `[0xFF, 0x00]` — not
valid UTF-8. -/
def strLogHost : Nat → Nat := fun p => if p = 100 then 255 else 0

/-- A wrapping shift with an in-range amount and no overflow is a plain shift. -/
theorem wrappingShl_small (a s : Nat) (hs : s < 64) (h : a * 2 ^ s < 2 ^ 64) :
    wrappingShl a s = a <<< s := by
  unfold wrappingShl
  rw [Nat.mod_eq_of_lt hs, Nat.shiftLeft_eq, Nat.mod_eq_of_lt h]

/-- C2 counterexample: with `arg1 = 256`, byte gather does not compute the
low-byte packing formula claimed — the code shifts the whole argument
without masking it to its low byte. -/
theorem gather_bytes_low_byte_pack_fails :
    BpfGatherBytes.call mEmpty 256 0 0 0 0 ≠
      ([Result.ok (gatherBytesLowBytePack 256 0 0 0 0)], []) := by
  decide

/-- C2 (amended): when every argument is below 256 — in particular its low
byte is the whole value — byte gather computes exactly the claimed packing
at bit offsets 32, 24, 16, 8, 0, performing no translation. -/
theorem gather_bytes_byte_args_pack (m : MemoryMapping) (a1 a2 a3 a4 a5 : Nat)
    (h1 : a1 < 256) (h2 : a2 < 256) (h3 : a3 < 256) (h4 : a4 < 256) (h5 : a5 < 256) :
    BpfGatherBytes.call m a1 a2 a3 a4 a5 =
      ([Result.ok (gatherBytesLowBytePack a1 a2 a3 a4 a5)], []) := by
  have bound : ∀ a s : Nat, a < 256 → s ≤ 56 → a * 2 ^ s < 2 ^ 64 := by
    intro a s ha hs
    calc a * 2 ^ s ≤ 255 * 2 ^ 56 :=
          Nat.mul_le_mul (by omega) (Nat.pow_le_pow_right (by omega) hs)
      _ < 2 ^ 64 := by norm_num
  unfold BpfGatherBytes.call gatherBytesLowBytePack
  rw [wrappingShl_small a1 32 (by omega) (bound a1 32 h1 (by omega)),
    wrappingShl_small a2 24 (by omega) (bound a2 24 h2 (by omega)),
    wrappingShl_small a3 16 (by omega) (bound a3 16 h3 (by omega)),
    wrappingShl_small a4 8 (by omega) (bound a4 8 h4 (by omega)),
    Nat.mod_eq_of_lt h1, Nat.mod_eq_of_lt h2, Nat.mod_eq_of_lt h3,
    Nat.mod_eq_of_lt h4, Nat.mod_eq_of_lt h5]

/-- C2 witness: the spec's example, `gather(0x11,0x22,0x33,0x44,0x55) =
0x1122334455` with no translation calls. -/
theorem gather_bytes_byte_args_pack_witness :
    BpfGatherBytes.call mEmpty 0x11 0x22 0x33 0x44 0x55 =
      ([Result.ok (gatherBytesLowBytePack 0x11 0x22 0x33 0x44 0x55)], []) ∧
    gatherBytesLowBytePack 0x11 0x22 0x33 0x44 0x55 = 0x1122334455 :=
  ⟨gather_bytes_byte_args_pack mEmpty 0x11 0x22 0x33 0x44 0x55
      (by decide) (by decide) (by decide) (by decide) (by decide),
    by decide⟩

/-- C4: when the Store translation fails, memory obfuscate writes exactly
the translation error into its output slot, performs no further
computation, and returns host memory unchanged (no partial mutation). -/
theorem memfrob_failed_translation_no_mutation (m : MemoryMapping) (host : Nat → Nat)
    (vmAddr len a3 a4 a5 : Nat) (e : EbpfError)
    (hmap : m.map AccessType.Store vmAddr len = Except.error e) :
    BpfMemFrob.call m host vmAddr len a3 a4 a5 =
      ([Result.err e], [(AccessType.Store, vmAddr, len)], host) := by
  unfold BpfMemFrob.call
  rw [hmap]

/-- C4 witness: a 9-byte Store request over an 8-byte region fails with an
AccessViolation and leaves the example buffer untouched. -/
theorem memfrob_failed_translation_no_mutation_witness :
    frobMapping.map AccessType.Store 4294967296 9 =
      Except.error (EbpfError.AccessViolation AccessType.Store 4294967296 9) ∧
    BpfMemFrob.call frobMapping frobHost 4294967296 9 0 0 0 =
      ([Result.err (EbpfError.AccessViolation AccessType.Store 4294967296 9)],
        [(AccessType.Store, 4294967296, 9)], frobHost) :=
  ⟨rfl, memfrob_failed_translation_no_mutation frobMapping frobHost 4294967296 9 0 0 0 _ rfl⟩

/-- Pointwise description of the XOR loop: each byte of the host interval
`[hostAddr, hostAddr + n)` is XORed with `0b101010`, all other host bytes
are untouched. -/
theorem frobLoop_apply (host : Nat → Nat) (base n : Nat) :
    ∀ p, BpfMemFrob.frobLoop host base n p =
      if base ≤ p ∧ p < base + n then host p ^^^ 42 else host p := by
  induction n with
  | zero =>
      intro p
      simp only [BpfMemFrob.frobLoop]
      rw [if_neg (by omega : ¬(base ≤ p ∧ p < base + 0))]
  | succ n ih =>
      intro p
      simp only [BpfMemFrob.frobLoop, setByte]
      by_cases hp : p = base + n
      · subst hp
        rw [if_pos rfl, ih (base + n), if_neg (by omega), if_pos (by omega)]
      · rw [if_neg hp, ih p]
        by_cases hin : base ≤ p ∧ p < base + n
        · rw [if_pos hin, if_pos (by omega)]
        · rw [if_neg hin, if_neg (by omega)]

/-- C3: when the Store translation succeeds, memory obfuscate returns 0,
XORs exactly the bytes of the translated range with `0b101010` in place,
and a second application over the same range restores the original host
memory byte for byte. -/
theorem memfrob_involution (m : MemoryMapping) (host : Nat → Nat)
    (vmAddr len a3 a4 a5 hostAddr : Nat)
    (hmap : m.map AccessType.Store vmAddr len = Except.ok hostAddr) :
    (BpfMemFrob.call m host vmAddr len a3 a4 a5).1 = [Result.ok 0] ∧
    (∀ p, hostAddr ≤ p → p < hostAddr + len →
      (BpfMemFrob.call m host vmAddr len a3 a4 a5).2.2 p = host p ^^^ 42) ∧
    (∀ p, ¬(hostAddr ≤ p ∧ p < hostAddr + len) →
      (BpfMemFrob.call m host vmAddr len a3 a4 a5).2.2 p = host p) ∧
    (BpfMemFrob.call m (BpfMemFrob.call m host vmAddr len a3 a4 a5).2.2
        vmAddr len a3 a4 a5).2.2 = host := by
  simp only [BpfMemFrob.call, hmap]
  refine ⟨by simp, ?_, ?_, ?_⟩
  · intro p h1 h2
    rw [frobLoop_apply, if_pos ⟨h1, h2⟩]
  · intro p h
    rw [frobLoop_apply, if_neg h]
  · funext p
    rw [frobLoop_apply, frobLoop_apply]
    by_cases hin : hostAddr ≤ p ∧ p < hostAddr + len
    · rw [if_pos hin, if_pos hin, Nat.xor_assoc, Nat.xor_self, Nat.xor_zero]
    · rw [if_neg hin, if_neg hin]

/-- C3 witness: the spec's example — buffer `[0,0,0,0,0,0x11,0x22,0x33]`
of length 8 becomes `[0x2a,0x2a,0x2a,0x2a,0x2a,0x3b,0x08,0x19]` after one
application and is restored after two. -/
theorem memfrob_involution_witness :
    frobMapping.map AccessType.Store 4294967296 8 = Except.ok 0 ∧
    ((BpfMemFrob.call frobMapping frobHost 4294967296 8 0 0 0).1 = [Result.ok 0] ∧
      (∀ p, 0 ≤ p → p < 0 + 8 →
        (BpfMemFrob.call frobMapping frobHost 4294967296 8 0 0 0).2.2 p =
          frobHost p ^^^ 42) ∧
      (∀ p, ¬(0 ≤ p ∧ p < 0 + 8) →
        (BpfMemFrob.call frobMapping frobHost 4294967296 8 0 0 0).2.2 p = frobHost p) ∧
      (BpfMemFrob.call frobMapping
          (BpfMemFrob.call frobMapping frobHost 4294967296 8 0 0 0).2.2
          4294967296 8 0 0 0).2.2 = frobHost) ∧
    (List.range 8).map (BpfMemFrob.call frobMapping frobHost 4294967296 8 0 0 0).2.2 =
      [0x2a, 0x2a, 0x2a, 0x2a, 0x2a, 0x3b, 0x08, 0x19] ∧
    (List.range 8).map (BpfMemFrob.call frobMapping
        (BpfMemFrob.call frobMapping frobHost 4294967296 8 0 0 0).2.2
        4294967296 8 0 0 0).2.2 =
      [0x00, 0x00, 0x00, 0x00, 0x00, 0x11, 0x22, 0x33] :=
  ⟨rfl, memfrob_involution frobMapping frobHost 4294967296 8 0 0 0 0 rfl,
    by decide, by decide⟩

/-- C7: the context diagnostic succeeds exactly on the expected sentinel
42, writing 0 and overwriting the context with 84; on any other context it
aborts (no guest-visible result, no write, no context update). -/
theorem syscall_with_context_spec (m : MemoryMapping) (context a1 a2 a3 a4 a5 : Nat) :
    (context = 42 →
      SyscallWithContext.call m context a1 a2 a3 a4 a5 = some ([Result.ok 0], [], 84)) ∧
    (context ≠ 42 → SyscallWithContext.call m context a1 a2 a3 a4 a5 = none) := by
  constructor
  · intro h
    simp [SyscallWithContext.call, h]
  · intro h
    simp [SyscallWithContext.call, h]

/-- C7 witness: a first call with context 42 succeeds and moves the
context to 84; a second call on the resulting context 84 aborts. -/
theorem syscall_with_context_spec_witness :
    SyscallWithContext.call mEmpty 42 0 0 0 0 0 = some ([Result.ok 0], [], 84) ∧
    SyscallWithContext.call mEmpty 84 0 0 0 0 0 = none :=
  ⟨(syscall_with_context_spec mEmpty 42 0 0 0 0 0).1 rfl,
    (syscall_with_context_spec mEmpty 84 0 0 0 0 0).2 (by decide)⟩

/-- C9: whenever the Load translation succeeds, the string-log syscall
writes 0 regardless of the byte contents; bytes that are not valid UTF-8
are replaced by the fixed placeholder message and never fail the call. -/
theorem syscall_string_ok_on_translated (m : MemoryMapping) (host : Nat → Nat)
    (vmAddr len a3 a4 a5 hostAddr : Nat)
    (hmap : m.map AccessType.Load vmAddr len = Except.ok hostAddr) :
    (BpfSyscallString.call m host vmAddr len a3 a4 a5).1 = [Result.ok 0] ∧
    (utf8Valid ((List.range len).map (fun i => host (hostAddr + i))) = false →
      BpfSyscallString.call m host vmAddr len a3 a4 a5 =
        ([Result.ok 0], [(AccessType.Load, vmAddr, len)], some invalidUtf8Placeholder)) := by
  unfold BpfSyscallString.call
  rw [hmap]
  refine ⟨rfl, ?_⟩
  intro h
  simp [h]

/-- C9 witness: the mapped bytes `[0xFF, 0x00]` are invalid UTF-8; the
call still succeeds with 0 and emits the placeholder. -/
theorem syscall_string_ok_on_translated_witness :
    strLogMapping.map AccessType.Load 4294967296 2 = Except.ok 100 ∧
    BpfSyscallString.call strLogMapping strLogHost 4294967296 2 0 0 0 =
      ([Result.ok 0], [(AccessType.Load, 4294967296, 2)], some invalidUtf8Placeholder) :=
  ⟨rfl,
    (syscall_string_ok_on_translated strLogMapping strLogHost 4294967296 2 0 0 0 100 rfl).2 rfl⟩

/-- One readable 1-byte region for the string-compare examples, placed at
guest address `0x100000000` over host byte 1000.  The mapped byte is not a
NUL terminator; host bytes 1001 and 1002 are the unmapped neighbours. -/
def strCmpRegion : MemoryRegion := ⟨1000, 4294967296, 1, false⟩

/-- Mapping holding `strCmpRegion`. -/
def strCmpMapping : MemoryMapping := ⟨[strCmpRegion]⟩

/-- Host memory around `strCmpRegion`: byte 65 at the one mapped host
address, then 66 and 0 at the adjacent unmapped host addresses. -/
def strCmpHost : Nat → Nat :=
  fun p => if p = 1000 then 65 else if p = 1001 then 66 else 0

/-- The byte walk stops at the first index whose byte pair is a mismatch
or contains a zero terminator, and returns that byte pair. -/
theorem strCmpLoop_spec (host : Nat → Nat) :
    ∀ fuel a b av bv, BpfStrCmp.loop host fuel a b = some (av, bv) →
      ∃ k,
        (∀ j, j < k → host (a + j) = host (b + j) ∧ host (a + j) ≠ 0 ∧ host (b + j) ≠ 0) ∧
        ¬(host (a + k) = host (b + k) ∧ host (a + k) ≠ 0 ∧ host (b + k) ≠ 0) ∧
        av = host (a + k) ∧ bv = host (b + k) := by
  intro fuel
  induction fuel with
  | zero =>
      intro a b av bv h
      unfold BpfStrCmp.loop at h
      by_cases hc : host a = host b ∧ host a ≠ 0 ∧ host b ≠ 0
      · rw [if_pos hc] at h
        exact absurd h (by simp)
      · rw [if_neg hc] at h
        obtain ⟨hav, hbv⟩ := Prod.mk.injEq _ _ _ _ ▸ Option.some.inj h
        refine ⟨0, fun j hj => absurd hj (Nat.not_lt_zero j), ?_, ?_, ?_⟩
        · simpa using hc
        · simpa using hav.symm
        · simpa using hbv.symm
  | succ n ih =>
      intro a b av bv h
      unfold BpfStrCmp.loop at h
      by_cases hc : host a = host b ∧ host a ≠ 0 ∧ host b ≠ 0
      · rw [if_pos hc] at h
        obtain ⟨k, hpre, hstop, hav, hbv⟩ := ih (a + 1) (b + 1) av bv h
        refine ⟨k + 1, ?_, ?_, ?_, ?_⟩
        · intro j hj
          cases j with
          | zero => simpa using hc
          | succ j' =>
              have hj' := hpre j' (by omega)
              rw [(by omega : a + (j' + 1) = a + 1 + j'),
                (by omega : b + (j' + 1) = b + 1 + j')]
              exact hj'
        · rw [(by omega : a + (k + 1) = a + 1 + k), (by omega : b + (k + 1) = b + 1 + k)]
          exact hstop
        · rw [(by omega : a + (k + 1) = a + 1 + k)]
          exact hav
        · rw [(by omega : b + (k + 1) = b + 1 + k)]
          exact hbv
      · rw [if_neg hc] at h
        obtain ⟨hav, hbv⟩ := Prod.mk.injEq _ _ _ _ ▸ Option.some.inj h
        refine ⟨0, fun j hj => absurd hj (Nat.not_lt_zero j), ?_, ?_, ?_⟩
        · simpa using hc
        · simpa using hav.symm
        · simpa using hbv.symm

/-- C5: guest string compare returns `u64::MAX` with no translation call
when either address is the null sentinel; otherwise, once the two one-byte
translations succeed and the byte walk stops, the result is determined by
the first position whose bytes mismatch or hit a zero terminator: it is
the unsigned magnitude of that byte pair, it is 0 exactly when the walked
byte sequences are equal up to the terminator, and equality at the
stopping position forces both bytes to be 0. -/
theorem strcmp_semantics (m : MemoryMapping) (host : Nat → Nat)
    (a1 a2 a3 a4 a5 fuel : Nat) :
    ((a1 = 0 ∨ a2 = 0) →
      BpfStrCmp.call m host a1 a2 a3 a4 a5 fuel = ([Result.ok u64Max], [])) ∧
    (∀ ha hb av bv, ¬(a1 = 0 ∨ a2 = 0) →
      m.map AccessType.Load a1 1 = Except.ok ha →
      m.map AccessType.Load a2 1 = Except.ok hb →
      BpfStrCmp.loop host fuel ha hb = some (av, bv) →
      ∃ k,
        (∀ j, j < k → host (ha + j) = host (hb + j) ∧ host (ha + j) ≠ 0) ∧
        (host (ha + k) ≠ host (hb + k) ∨ host (ha + k) = 0 ∨ host (hb + k) = 0) ∧
        BpfStrCmp.call m host a1 a2 a3 a4 a5 fuel =
          ([Result.ok (if host (hb + k) ≤ host (ha + k)
              then host (ha + k) - host (hb + k)
              else host (hb + k) - host (ha + k))],
            [(AccessType.Load, a1, 1), (AccessType.Load, a2, 1)]) ∧
        ((BpfStrCmp.call m host a1 a2 a3 a4 a5 fuel).1 = [Result.ok 0] ↔
          host (ha + k) = host (hb + k)) ∧
        (host (ha + k) = host (hb + k) → host (ha + k) = 0 ∧ host (hb + k) = 0)) := by
  constructor
  · intro h
    unfold BpfStrCmp.call
    rw [if_pos h]
  · intro ha hb av bv hnull hm1 hm2 hloop
    obtain ⟨k, hpre, hstop, hav, hbv⟩ := strCmpLoop_spec host fuel ha hb av bv hloop
    have hcall : BpfStrCmp.call m host a1 a2 a3 a4 a5 fuel =
        ([Result.ok (if host (hb + k) ≤ host (ha + k)
            then host (ha + k) - host (hb + k)
            else host (hb + k) - host (ha + k))],
          [(AccessType.Load, a1, 1), (AccessType.Load, a2, 1)]) := by
      unfold BpfStrCmp.call
      rw [if_neg hnull, hm1, hm2]
      simp only [hloop, hav, hbv]
    refine ⟨k, fun j hj => ⟨(hpre j hj).1, (hpre j hj).2.1⟩, by tauto, hcall, ?_, ?_⟩
    · rw [hcall]
      constructor
      · intro heq
        have h0 : (if host (hb + k) ≤ host (ha + k)
            then host (ha + k) - host (hb + k)
            else host (hb + k) - host (ha + k)) = 0 := by
          simpa using heq
        by_cases hle : host (hb + k) ≤ host (ha + k)
        · rw [if_pos hle] at h0
          omega
        · rw [if_neg hle] at h0
          omega
      · intro heq
        rw [heq]
        simp
    · intro heq
      have hor : host (ha + k) = 0 ∨ host (hb + k) = 0 := by tauto
      omega

/-- C5 witness: the null-sentinel case at address pair (0, 5) and the
walk case on the concrete one-byte region (both strings at the same
address, bytes 65, 66, then terminator 0, result 0). -/
theorem strcmp_semantics_witness :
    BpfStrCmp.call mEmpty host0 0 5 0 0 0 0 = ([Result.ok u64Max], []) ∧
    (∃ k,
      (∀ j, j < k →
        strCmpHost (1000 + j) = strCmpHost (1000 + j) ∧ strCmpHost (1000 + j) ≠ 0) ∧
      (strCmpHost (1000 + k) ≠ strCmpHost (1000 + k) ∨ strCmpHost (1000 + k) = 0 ∨
        strCmpHost (1000 + k) = 0) ∧
      BpfStrCmp.call strCmpMapping strCmpHost 4294967296 4294967296 0 0 0 3 =
        ([Result.ok (if strCmpHost (1000 + k) ≤ strCmpHost (1000 + k)
            then strCmpHost (1000 + k) - strCmpHost (1000 + k)
            else strCmpHost (1000 + k) - strCmpHost (1000 + k))],
          [(AccessType.Load, 4294967296, 1), (AccessType.Load, 4294967296, 1)]) ∧
      ((BpfStrCmp.call strCmpMapping strCmpHost 4294967296 4294967296 0 0 0 3).1 =
          [Result.ok 0] ↔
        strCmpHost (1000 + k) = strCmpHost (1000 + k)) ∧
      (strCmpHost (1000 + k) = strCmpHost (1000 + k) →
        strCmpHost (1000 + k) = 0 ∧ strCmpHost (1000 + k) = 0)) :=
  ⟨(strcmp_semantics mEmpty host0 0 5 0 0 0 0).1 (Or.inl rfl),
    (strcmp_semantics strCmpMapping strCmpHost 4294967296 4294967296 0 0 0 3).2
      1000 1000 0 0 (by decide) rfl rfl (by decide)⟩

/-- C1 (divergence of the code from the claim): with one readable 1-byte
region whose byte is not a NUL terminator, comparing the region's address
with itself succeeds with 0 after exactly two one-byte translations — both
for the start addresses only — although the byte walk read the bytes at
guest offsets 1 and 2, whose one-byte Load translations are rejected with
an AccessViolation.  Per the claim the call would have to request a fresh
translation for each byte and fail at guest address `0x100000001`. -/
theorem strcmp_translates_only_first_byte :
    BpfStrCmp.call strCmpMapping strCmpHost 4294967296 4294967296 0 0 0 3 =
      ([Result.ok 0],
        [(AccessType.Load, 4294967296, 1), (AccessType.Load, 4294967296, 1)]) ∧
    strCmpMapping.map AccessType.Load 4294967297 1 =
      Except.error (EbpfError.AccessViolation AccessType.Load 4294967297 1) ∧
    strCmpMapping.map AccessType.Load 4294967298 1 =
      Except.error (EbpfError.AccessViolation AccessType.Load 4294967298 1) := by
  refine ⟨by decide, rfl, rfl⟩

/-- The byte walk is symmetric up to swapping the returned byte pair. -/
theorem strCmpLoop_swap (host : Nat → Nat) :
    ∀ fuel a b, BpfStrCmp.loop host fuel b a =
      Option.map (fun p => (p.2, p.1)) (BpfStrCmp.loop host fuel a b) := by
  intro fuel
  induction fuel with
  | zero =>
      intro a b
      unfold BpfStrCmp.loop
      by_cases hc : host a = host b ∧ host a ≠ 0 ∧ host b ≠ 0
      · rw [if_pos hc, if_pos ⟨hc.1.symm, hc.2.2, hc.2.1⟩]
        rfl
      · have hc' : ¬(host b = host a ∧ host b ≠ 0 ∧ host a ≠ 0) := by tauto
        rw [if_neg hc, if_neg hc']
        rfl
  | succ n ih =>
      intro a b
      unfold BpfStrCmp.loop
      by_cases hc : host a = host b ∧ host a ≠ 0 ∧ host b ≠ 0
      · rw [if_pos hc, if_pos ⟨hc.1.symm, hc.2.2, hc.2.1⟩]
        exact ih (a + 1) (b + 1)
      · have hc' : ¬(host b = host a ∧ host b ≠ 0 ∧ host a ≠ 0) := by tauto
        rw [if_neg hc, if_neg hc']
        rfl

/-- C10 counterexample: when both addresses are non-null and both one-byte
translations fail, swapping the arguments changes the written outcome,
because the AccessViolation carries the address of the first failing
translation in argument order. -/
theorem strcmp_not_symmetric_on_double_fault :
    (BpfStrCmp.call mEmpty host0 1 2 0 0 0 0).1 ≠
      (BpfStrCmp.call mEmpty host0 2 1 0 0 0 0).1 := by
  decide

/-- C10 (amended): guest string compare writes the same outcome for
argument orders `(a, b)` and `(b, a)` whenever either address is null or
at least one of the two one-byte translations succeeds; only when both
translations fail do the outcomes differ, and then only in the address
carried by the AccessViolation. -/
theorem strcmp_symmetric_unless_both_fail (m : MemoryMapping) (host : Nat → Nat)
    (a b a3 a4 a5 fuel : Nat)
    (h : a = 0 ∨ b = 0 ∨ (∃ x, m.map AccessType.Load a 1 = Except.ok x) ∨
      (∃ x, m.map AccessType.Load b 1 = Except.ok x)) :
    (BpfStrCmp.call m host a b a3 a4 a5 fuel).1 =
      (BpfStrCmp.call m host b a a3 a4 a5 fuel).1 := by
  by_cases hnull : a = 0 ∨ b = 0
  · unfold BpfStrCmp.call
    rw [if_pos hnull, if_pos hnull.symm]
  · have hnull' : ¬(b = 0 ∨ a = 0) := by tauto
    unfold BpfStrCmp.call
    rw [if_neg hnull, if_neg hnull']
    cases hma : m.map AccessType.Load a 1 with
    | error ea =>
        cases hmb : m.map AccessType.Load b 1 with
        | error eb =>
            exfalso
            rcases h with h | h | ⟨x, hx⟩ | ⟨x, hx⟩
            · exact hnull (Or.inl h)
            · exact hnull (Or.inr h)
            · rw [hma] at hx
              exact Except.noConfusion hx
            · rw [hmb] at hx
              exact Except.noConfusion hx
        | ok xb => simp [hma, hmb]
    | ok xa =>
        cases hmb : m.map AccessType.Load b 1 with
        | error eb => simp [hma, hmb]
        | ok xb =>
            simp only [hma, hmb]
            rw [strCmpLoop_swap host fuel xa xb]
            cases hl : BpfStrCmp.loop host fuel xa xb with
            | none => simp
            | some p =>
                obtain ⟨av, bv⟩ := p
                have hmag : (if bv ≤ av then av - bv else bv - av) =
                    (if av ≤ bv then bv - av else av - bv) := by
                  by_cases h1 : bv ≤ av
                  · by_cases h2 : av ≤ bv
                    · rw [if_pos h1, if_pos h2]
                      omega
                    · rw [if_pos h1, if_neg h2]
                  · by_cases h2 : av ≤ bv
                    · rw [if_neg h1, if_pos h2]
                    · rw [if_neg h1, if_neg h2]
                      omega
                simp [hmag]

/-- C10 witness: one translation succeeds and one fails; both argument
orders write the same AccessViolation for the failing address. -/
theorem strcmp_symmetric_unless_both_fail_witness :
    ((4294967296 : Nat) = 0 ∨ (5 : Nat) = 0 ∨
      (∃ x, strCmpMapping.map AccessType.Load 4294967296 1 = Except.ok x) ∨
      (∃ x, strCmpMapping.map AccessType.Load 5 1 = Except.ok x)) ∧
    (BpfStrCmp.call strCmpMapping strCmpHost 4294967296 5 0 0 0 3).1 =
      (BpfStrCmp.call strCmpMapping strCmpHost 5 4294967296 0 0 0 3).1 :=
  ⟨Or.inr (Or.inr (Or.inl ⟨1000, rfl⟩)),
    strcmp_symmetric_unless_both_fail strCmpMapping strCmpHost 4294967296 5 0 0 0 3
      (Or.inr (Or.inr (Or.inl ⟨1000, rfl⟩)))⟩

/-- C8 counterexample: the context diagnostic invoked with a context other
than the expected sentinel aborts without writing any outcome into the
output slot — neither a success value nor a typed failure is written. -/
theorem with_context_aborts_without_write :
    SyscallWithContext.call mEmpty 0 0 0 0 0 0 = none := by
  decide

/-- C8 (amended): every invocation of every syscall in the module that
returns writes exactly one outcome into the output slot.  For guest string
compare an invocation fails to write only when its raw byte walk never
reaches a stopping byte pair, and it never writes twice; the context
diagnostic writes exactly once on the expected sentinel and aborts without
writing on any other context. -/
theorem outcome_written_once :
    (∀ sizeArg m a1 a2 a3 a4 a5,
      (BpfTracePrintf.call sizeArg m a1 a2 a3 a4 a5).1.length = 1) ∧
    (∀ m a1 a2 a3 a4 a5, (BpfGatherBytes.call m a1 a2 a3 a4 a5).1.length = 1) ∧
    (∀ m host vmAddr len a3 a4 a5,
      (BpfMemFrob.call m host vmAddr len a3 a4 a5).1.length = 1) ∧
    (∀ m host a1 a2 a3 a4 a5 fuel,
      (BpfStrCmp.call m host a1 a2 a3 a4 a5 fuel).1.length ≤ 1 ∧
      ((BpfStrCmp.call m host a1 a2 a3 a4 a5 fuel).1 = [] →
        ∃ ha hb, m.map AccessType.Load a1 1 = Except.ok ha ∧
          m.map AccessType.Load a2 1 = Except.ok hb ∧
          BpfStrCmp.loop host fuel ha hb = none)) ∧
    (∀ m host vmAddr len a3 a4 a5,
      (BpfSyscallString.call m host vmAddr len a3 a4 a5).1.length = 1) ∧
    (∀ m a1 a2 a3 a4 a5, (BpfSyscallU64.call m a1 a2 a3 a4 a5).1.length = 1) ∧
    (∀ m context a1 a2 a3 a4 a5,
      (context = 42 → ∃ s, SyscallWithContext.call m context a1 a2 a3 a4 a5 = some s ∧
        s.1.length = 1) ∧
      (context ≠ 42 → SyscallWithContext.call m context a1 a2 a3 a4 a5 = none)) := by
  refine ⟨fun sizeArg m a1 a2 a3 a4 a5 => rfl,
    fun m a1 a2 a3 a4 a5 => rfl, ?_, ?_, ?_,
    fun m a1 a2 a3 a4 a5 => rfl, ?_⟩
  · intro m host vmAddr len a3 a4 a5
    cases hm : m.map AccessType.Store vmAddr len <;> simp [BpfMemFrob.call, hm]
  · intro m host a1 a2 a3 a4 a5 fuel
    by_cases hnull : a1 = 0 ∨ a2 = 0
    · constructor
      · simp [BpfStrCmp.call, hnull]
      · intro habs
        rw [BpfStrCmp.call, if_pos hnull] at habs
        exact absurd habs (by simp)
    · cases hma : m.map AccessType.Load a1 1 with
      | error ea =>
          constructor
          · simp [BpfStrCmp.call, hnull, hma]
          · intro habs
            rw [BpfStrCmp.call, if_neg hnull] at habs
            simp only [hma] at habs
            exact absurd habs (by simp)
      | ok xa =>
          cases hmb : m.map AccessType.Load a2 1 with
          | error eb =>
              constructor
              · simp [BpfStrCmp.call, hnull, hma, hmb]
              · intro habs
                rw [BpfStrCmp.call, if_neg hnull] at habs
                simp only [hma, hmb] at habs
                exact absurd habs (by simp)
          | ok xb =>
              cases hl : BpfStrCmp.loop host fuel xa xb with
              | none =>
                  constructor
                  · simp [BpfStrCmp.call, hnull, hma, hmb, hl]
                  · intro _
                    exact ⟨xa, xb, rfl, rfl, hl⟩
              | some p =>
                  obtain ⟨av, bv⟩ := p
                  constructor
                  · simp [BpfStrCmp.call, hnull, hma, hmb, hl]
                  · intro habs
                    rw [BpfStrCmp.call, if_neg hnull] at habs
                    simp only [hma, hmb, hl] at habs
                    exact absurd habs (by simp)
  · intro m host vmAddr len a3 a4 a5
    cases hm : m.map AccessType.Load vmAddr len <;> simp [BpfSyscallString.call, hm]
  · intro m context a1 a2 a3 a4 a5
    constructor
    · intro h
      exact ⟨([Result.ok 0], [], 84), by simp [SyscallWithContext.call, h], rfl⟩
    · intro h
      simp [SyscallWithContext.call, h]

/-- C8 witness: one concrete invocation of each syscall, each writing
exactly one outcome; for string compare also the fuel-starved walk case
with no write, and for the context diagnostic the successful sentinel
case. -/
theorem outcome_written_once_witness :
    (BpfTracePrintf.call (fun _ => 1) mEmpty 0 0 1 15 32).1.length = 1 ∧
    (BpfGatherBytes.call mEmpty 0x11 0x22 0x33 0x44 0x55).1.length = 1 ∧
    (BpfMemFrob.call frobMapping frobHost 4294967296 8 0 0 0).1.length = 1 ∧
    (BpfStrCmp.call strCmpMapping strCmpHost 4294967296 4294967296 0 0 0 3).1.length ≤ 1 ∧
    (∃ ha hb, strCmpMapping.map AccessType.Load 4294967296 1 = Except.ok ha ∧
      strCmpMapping.map AccessType.Load 4294967296 1 = Except.ok hb ∧
      BpfStrCmp.loop strCmpHost 0 ha hb = none) ∧
    (BpfSyscallString.call strLogMapping strLogHost 4294967296 2 0 0 0).1.length = 1 ∧
    (BpfSyscallU64.call mEmpty 1 2 3 4 5).1.length = 1 ∧
    (∃ s, SyscallWithContext.call mEmpty 42 0 0 0 0 0 = some s ∧ s.1.length = 1) :=
  ⟨outcome_written_once.1 (fun _ => 1) mEmpty 0 0 1 15 32,
    outcome_written_once.2.1 mEmpty 0x11 0x22 0x33 0x44 0x55,
    outcome_written_once.2.2.1 frobMapping frobHost 4294967296 8 0 0 0,
    (outcome_written_once.2.2.2.1 strCmpMapping strCmpHost 4294967296 4294967296 0 0 0 3).1,
    (outcome_written_once.2.2.2.1 strCmpMapping strCmpHost 4294967296 4294967296 0 0 0 0).2
      (by decide),
    outcome_written_once.2.2.2.2.1 strLogMapping strLogHost 4294967296 2 0 0 0,
    outcome_written_once.2.2.2.2.2.1 mEmpty 1 2 3 4 5,
    (outcome_written_once.2.2.2.2.2.2 mEmpty 42 0 0 0 0 0).1 rfl⟩

end Rbpf
